import Mathlib

/-
  Verification of the image-gin Obsidian plugin's local-image migration
  workflow.  The shallow embedding below translates the relevant parts of
  src/services/imagekitService.ts, src/modals/ConvertLocalImagesForCurrentFile.ts
  and src/modals/CurrentFileModal.ts (class BatchDirectoryConvertLocalToRemote)
  into Lean definitions.  JavaScript strings are modeled as lists of characters
  (`JStr`); binary buffers as lists of byte values (`List Nat`); the Obsidian
  vault as an association map from paths to document texts and image binaries;
  thrown exceptions as `Except`.
-/

namespace ImageGin

/-- JavaScript strings, modeled as their character sequences. -/
abbrev JStr := List Char

/-- Character list of a Lean string literal. -/
def strL (s : String) : JStr := s.data

/-- Models JavaScript `String.prototype.includes(sub)`: `sub` occurs as a
contiguous substring of `s`.  Note `s.includes('')` is `true` for every `s`,
matching JavaScript. -/
def jsIncludes (s sub : JStr) : Bool := decide (sub <:+: s)

/-- Models JavaScript `String.prototype.startsWith(p)`. -/
def jsStartsWith (s p : JStr) : Bool := p.isPrefixOf s

/-- Models JavaScript `String.prototype.endsWith(p)`. -/
def jsEndsWith (s p : JStr) : Bool := p.isSuffixOf s

/-- Models JavaScript `String.prototype.replace(m, r)` with a plain string
pattern `m`: only the first (leftmost) occurrence of `m` is replaced by `r`;
a string with no occurrence is returned unchanged.  This is the call
`content.replace(imageRef.fullMatch, ...)` in
BatchDirectoryConvertLocalToRemote.convertSingleImage (CurrentFileModal.ts
lines 846-849). -/
def replaceFirst (m r : JStr) : JStr → JStr
  | [] => if m.isPrefixOf [] then r ++ List.drop m.length [] else []
  | c :: rest =>
    if m.isPrefixOf (c :: rest) then r ++ List.drop m.length (c :: rest)
    else c :: replaceFirst m r rest

/-- Helper for `replaceAll` with the empty pattern: a global empty regex
matches at every position, so the replacement is inserted before every
character and once more at the end (JavaScript `'ab'.replace(/(?:)/g, '-')`
gives `'-a-b-'`). -/
def insertEverywhere (r : JStr) : JStr → JStr
  | [] => r
  | c :: rest => r ++ c :: insertEverywhere r rest

/-- Scanner for `replaceAll` with a non-empty pattern `m`: `skip` counts the
characters still to be consumed by the most recently replaced match.  At each
position with `skip = 0` the scanner tests whether `m` starts here; on a match
it emits `r` and consumes the matched characters, otherwise it copies the
current character.  This is the leftmost, non-overlapping scan a `g`-flagged
regex performs over the original input. -/
def replaceAllGo (m r : JStr) : Nat → JStr → JStr
  | _, [] => []
  | k + 1, _ :: rest => replaceAllGo m r k rest
  | 0, c :: rest =>
    if m.isPrefixOf (c :: rest) then
      r ++ replaceAllGo m r (m.length - 1) rest
    else
      c :: replaceAllGo m r 0 rest

/-- Models JavaScript `s.replace(new RegExp(escapeRegExp(m), 'g'), r)`
(ConvertLocalImagesForCurrentFile.ts lines 366-369): since the pattern is the
escaped literal `m`, every non-overlapping occurrence of `m` in the original
string, scanned left to right, is replaced by `r`. -/
def replaceAll (m r s : JStr) : JStr :=
  match m with
  | [] => insertEverywhere r s
  | _ :: _ => replaceAllGo m r 0 s

/-- Models ConvertLocalImagesForCurrentFile.escapeRegExp (lines 424-426):
every regex metacharacter is prefixed with a backslash, so the resulting
pattern denotes the literal string.  This is why the global regex replacement
above is literal substring replacement. -/
def escapeRegExp (s : JStr) : JStr :=
  s.foldr
    (fun c acc =>
      if c ∈ ['.', '*', '+', '?', '^', '$', '\x7b', '\x7d', '(', ')', '|', '[', ']', '\\']
      then '\\' :: c :: acc else c :: acc) []

/-- Models ImageKitService.isImageKitUrl (imagekitService.ts lines 138-141):
an empty string is falsy and yields `false`; otherwise the url counts as an
ImageKit url when it contains the substring `ik.imagekit.io` or the configured
`urlEndpoint` setting as a substring. -/
def isImageKitUrl (urlEndpoint : JStr) (url : JStr) : Bool :=
  if url = [] then false
  else jsIncludes url (strL "ik.imagekit.io") || jsIncludes url urlEndpoint

/-- Models ConvertLocalImagesForCurrentFile.isLocalImagePath (lines 117-129):
a path already recognized as an ImageKit url is not local; otherwise it is
local when it starts with neither `http://` nor `https://` and contains one of
the image extensions as a substring. -/
def isLocalImagePath (urlEndpoint : JStr) (path : JStr) : Bool :=
  if isImageKitUrl urlEndpoint path then false
  else
    !jsStartsWith path (strL "http://") &&
    !jsStartsWith path (strL "https://") &&
    (jsIncludes path (strL ".png") || jsIncludes path (strL ".jpg") ||
     jsIncludes path (strL ".jpeg") || jsIncludes path (strL ".webp") ||
     jsIncludes path (strL ".gif") || jsIncludes path (strL ".svg"))

/-- UTF-8 byte values of a string, as produced by `new TextEncoder().encode`
in imagekitService.ts lines 87-88. -/
def utf8Bytes (s : String) : List Nat := s.toUTF8.toList.map (fun b => b.toNat)

/-- Models JavaScript `s.endsWith(p)` on host strings. -/
def jsEndsWithS (s p : String) : Bool := p.data.isSuffixOf s.data

/-- Models `fileName.replace(/\.[^.]+$/, '.webp')` (imagekitService.ts line
46): when the name ends in a dot followed by one or more non-dot characters,
that final extension (dot included) is replaced by `.webp`; otherwise the name
is unchanged. -/
def webpRename (f : String) : String :=
  let rev := f.data.reverse
  let ext := rev.takeWhile (fun c => c ≠ '.')
  if ext.length < rev.length ∧ ext ≠ [] then
    String.mk ((rev.drop (ext.length + 1)).reverse ++ strL ".webp")
  else f

/-- The `imageKit` block of `ImageGinSettings` (settings.ts lines 72-79),
restricted to the fields read by ImageKitService and the classifiers. -/
structure ImageKitConfig where
  enabled : Bool
  privateKey : String
  urlEndpoint : String
  uploadFolder : String
  removeLocalFiles : Bool
  convertToWebp : Bool

/-- The `finalFileName` computed at imagekitService.ts lines 44-47. -/
def finalFileNameOf (cfg : ImageKitConfig) (fileName : String) : String :=
  if cfg.convertToWebp && !jsEndsWithS fileName ".webp" && !jsEndsWithS fileName ".svg"
  then webpRename fileName else fileName

/-- `folder || this.settings.imageKit.uploadFolder` (line 60): a missing or
empty (falsy) folder argument falls back to the configured upload folder. -/
def uploadFolderOf (cfg : ImageKitConfig) (folder : Option String) : String :=
  match folder with
  | some f => if f = "" then cfg.uploadFolder else f
  | none => cfg.uploadFolder

/-- The `formFields` array assembled at imagekitService.ts lines 51-80:
the fileName field, the folder field when the folder is non-empty, the tags
field when tags are present and non-empty, then the file part header. -/
def formFieldsOf (cfg : ImageKitConfig) (boundary fileName : String)
    (folder : Option String) (tags : Option (List String)) : List String :=
  let finalFileName := finalFileNameOf cfg fileName
  let uploadFolder := uploadFolderOf cfg folder
  ["--" ++ boundary,
   "Content-Disposition: form-data; name=\"fileName\"",
   "",
   finalFileName]
  ++ (if uploadFolder ≠ "" then
        ["--" ++ boundary,
         "Content-Disposition: form-data; name=\"folder\"",
         "",
         uploadFolder]
      else [])
  ++ (match tags with
      | some ts =>
        if 0 < ts.length then
          ["--" ++ boundary,
           "Content-Disposition: form-data; name=\"tags\"",
           "",
           String.intercalate "," ts]
        else []
      | none => [])
  ++ ["--" ++ boundary,
      "Content-Disposition: form-data; name=\"file\"; filename=\"" ++ finalFileName ++ "\"",
      "Content-Type: application/octet-stream",
      ""]

/-- `formFields.join('\r\n') + '\r\n'` (line 83). -/
def formHeaderOf (cfg : ImageKitConfig) (boundary fileName : String)
    (folder : Option String) (tags : Option (List String)) : String :=
  String.intercalate "\r\n" (formFieldsOf cfg boundary fileName folder tags) ++ "\r\n"

/-- The closing boundary line (line 84). -/
def formFooterOf (boundary : String) : String := "\r\n--" ++ boundary ++ "--\r\n"

/-- Models `Uint8Array.prototype.set(src, offset)` on a destination buffer of
length at least `offset + src.length` (the only way it is used at
imagekitService.ts lines 94-96, where the destination was allocated with the
exact total length). -/
def setAt (dest : List Nat) (offset : Nat) (src : List Nat) : List Nat :=
  dest.take offset ++ src ++ dest.drop (offset + src.length)

/-- Shallow embedding of ImageKitService.uploadFile (imagekitService.ts lines
29-115) up to the point where the multipart request body has been assembled
and is handed to `requestUrl`; the network call itself and response parsing
are outside the embedding, so the function returns the assembled body bytes.
The random `boundary` string (line 50) is passed as a parameter. -/
def uploadFile (cfg : ImageKitConfig) (boundary : String) (fileBuffer : List Nat)
    (fileName : String) (folder : Option String) (tags : Option (List String)) :
    Except String (List Nat) :=
  if !cfg.enabled then Except.error "ImageKit is not enabled in settings"
  else if cfg.privateKey = "" then Except.error "ImageKit private key is not configured"
  else
    let headerBytes := utf8Bytes (formHeaderOf cfg boundary fileName folder tags)
    let footerBytes := utf8Bytes (formFooterOf boundary)
    let fileBytes := fileBuffer
    let totalLength := headerBytes.length + fileBytes.length + footerBytes.length
    let combined0 := List.replicate totalLength 0
    let combined1 := setAt combined0 0 headerBytes
    let combined2 := setAt combined1 headerBytes.length fileBytes
    let combined3 := setAt combined2 (headerBytes.length + fileBytes.length) footerBytes
    Except.ok combined3

/-- The `LocalImageReference` record of CurrentFileModal.ts lines 415-423. -/
structure LocalImageReference where
  filePath : JStr
  fileName : JStr
  imagePath : JStr
  imageName : JStr
  fullMatch : JStr
  lineNumber : Nat
  selected : Bool

/-- The vault as seen by the batch converter: markdown documents (path to
text) and image binaries (path to bytes).  Lookup returns the entry for the
first matching path, and writing a document prepends a fresh binding, so a
later read observes the latest write: this models `vault.read`,
`vault.modify`, `vault.getAbstractFileByPath` and `vault.readBinary`. -/
structure VaultState where
  docs : List (JStr × JStr)
  images : List (JStr × List Nat)

def readDoc (v : VaultState) (p : JStr) : Option JStr := v.docs.lookup p

def writeDoc (v : VaultState) (p : JStr) (content : JStr) : VaultState :=
  { v with docs := (p, content) :: v.docs }

/-- `vault.delete(imageFile)` for the removeLocalFiles option. -/
def deleteImage (v : VaultState) (p : JStr) : VaultState :=
  { v with images := v.images.eraseP (fun kv => kv.1 == p) }

/-- The replacement text `![imageName](url)` written by the batch flow
(CurrentFileModal.ts line 848). -/
def remoteEmbedText (imageName url : JStr) : JStr :=
  strL "![" ++ imageName ++ strL "](" ++ url ++ strL ")"

/-- Shallow embedding of BatchDirectoryConvertLocalToRemote.convertSingleImage
(CurrentFileModal.ts lines 819-861).  `upload` abstracts
ImageKitService.uploadFile together with the network: it receives the image
bytes, the image name and the upload folder and either returns the CDN url or
throws.  The operations appear in source order: document handle lookup, image
handle lookup, binary read and upload, then document read, first-occurrence
replace and document write, then the optional local file deletion. -/
def convertSingleImage (removeLocalFiles : Bool) (uploadFolder : JStr)
    (upload : List Nat → JStr → JStr → Except String JStr)
    (v : VaultState) (ref : LocalImageReference) : Except String VaultState :=
  match readDoc v ref.filePath with
  | none => Except.error "File not found"
  | some _ =>
    match v.images.lookup ref.imagePath with
    | none => Except.error "Image file not found"
    | some imageBuffer =>
      match upload imageBuffer ref.imageName uploadFolder with
      | Except.error e => Except.error e
      | Except.ok url =>
        match readDoc v ref.filePath with
        | none => Except.error "File not found"
        | some content =>
          let newContent :=
            replaceFirst ref.fullMatch (remoteEmbedText ref.imageName url) content
          let v1 := writeDoc v ref.filePath newContent
          Except.ok (if removeLocalFiles then deleteImage v1 ref.imagePath else v1)

/-- The sequential conversion loop of
BatchDirectoryConvertLocalToRemote.handleConvert (CurrentFileModal.ts lines
786-800): items are processed one at a time in list order; a success
increments `successCount`; an error is caught at the item boundary, increments
`errorCount` and leaves the vault exactly as it was before the item; the loop
always continues with the remaining items.  Returns the final vault together
with `(successCount, errorCount)`. -/
def runBatch (removeLocalFiles : Bool) (uploadFolder : JStr)
    (upload : List Nat → JStr → JStr → Except String JStr)
    (v : VaultState) : List LocalImageReference → VaultState × Nat × Nat
  | [] => (v, 0, 0)
  | ref :: rest =>
    match convertSingleImage removeLocalFiles uploadFolder upload v ref with
    | Except.ok v1 =>
      let t := runBatch removeLocalFiles uploadFolder upload v1 rest
      (t.1, t.2.1 + 1, t.2.2)
    | Except.error _ =>
      let t := runBatch removeLocalFiles uploadFolder upload v rest
      (t.1, t.2.1, t.2.2 + 1)

/-- BatchDirectoryConvertLocalToRemote.handleConvert (lines 769-817): the
selected references are filtered out of the scanned list and converted
sequentially; the completion notice reports `(successCount, errorCount)`. -/
def handleConvert (removeLocalFiles : Bool) (uploadFolder : JStr)
    (upload : List Nat → JStr → JStr → Except String JStr)
    (v : VaultState) (refs : List LocalImageReference) : VaultState × Nat × Nat :=
  runBatch removeLocalFiles uploadFolder upload v (refs.filter (fun r => r.selected))

/-- The markdown body rewrite of the single-file flow,
ConvertLocalImagesForCurrentFile.handleConvert lines 366-369:
`markdownContent.replace(new RegExp(escapeRegExp(match), 'g'), '![](url)')`.
Note the replacement inserts an empty alt text. -/
def singleFileMarkdownRewrite (matchStr url content : JStr) : JStr :=
  replaceAll matchStr (strL "![](" ++ url ++ strL ")") content

/-- An embed reference `![[path]]` as matched by the scan regex
`!\[\[([^\]]+)\]\]` in both modals. -/
def embedRef (path : JStr) : JStr := strL "![[" ++ path ++ strL "]]"

/-- Models Node `path.basename` on the slash-free-tail image paths the scanner
produces: the part of the path after its last `/`. -/
def jsBasename (p : JStr) : JStr := (p.reverse.takeWhile (fun c => c ≠ '/')).reverse

/-! ### Generic properties of the rewriters -/

theorem replaceFirst_matched {m s : JStr} (r : JStr) (h : m.isPrefixOf s = true) :
    replaceFirst m r s = r ++ s.drop m.length := by
  cases s with
  | nil => simp [replaceFirst, h]
  | cons c rest => simp [replaceFirst, h]

theorem replaceAllGo_id_of_not_infix {m r : JStr} :
    ∀ {t : JStr}, ¬ (m <:+: t) → replaceAllGo m r 0 t = t := by
  intro t
  induction t with
  | nil => intro _; rfl
  | cons c rest ih =>
    intro h
    have hp : m.isPrefixOf (c :: rest) = false := by
      rw [Bool.eq_false_iff]
      intro hpre
      exact h (List.IsPrefix.isInfix ( List.isPrefixOf_iff_prefix.mp hpre))
    have hrest : ¬ (m <:+: rest) := fun hr => h (List.infix_cons_iff.mpr (Or.inr hr))
    simp [replaceAllGo, hp, ih hrest]

theorem replaceAll_id_of_not_infix {m r t : JStr} (h : ¬ (m <:+: t)) :
    replaceAll m r t = t := by
  match m with
  | [] => exact absurd List.nil_infix h
  | c :: m' => exact replaceAllGo_id_of_not_infix h

theorem replaceAllGo_skip_append (m r : JStr) :
    ∀ (t post : JStr), replaceAllGo m r t.length (t ++ post) = replaceAllGo m r 0 post := by
  intro t
  induction t with
  | nil => intro _; rfl
  | cons c t' ih => intro post; exact ih post

theorem replaceAll_head_occurrence {m : JStr} (r post : JStr) (hm : m ≠ [])
    (hpost : ¬ (m <:+: post)) : replaceAll m r (m ++ post) = r ++ post := by
  match m with
  | [] => exact absurd rfl hm
  | c :: m' =>
    have hp : (c :: m').isPrefixOf (c :: (m' ++ post)) = true :=
      List.isPrefixOf_iff_prefix.mpr (by rw [← List.cons_append]; exact List.prefix_append _ _)
    show replaceAllGo (c :: m') r 0 (c :: (m' ++ post)) = r ++ post
    simp only [replaceAllGo, hp, if_true]
    have hlen : (c :: m').length - 1 = m'.length := by simp
    rw [hlen, replaceAllGo_skip_append, replaceAllGo_id_of_not_infix hpost]

/-! ### C5: the batch conversion's targeted rewrite touches only the first
occurrence -/

/-- C5: whenever the match string occurs in the document text (in particular
when it occurs two or more times), the single-occurrence rewrite used by the
batch conversion (`content.replace(fullMatch, ...)`, embedded as
`replaceFirst`) splits the text as `pre ++ m ++ post` where no occurrence of
`m` starts before `pre.length` (so the replaced occurrence is the first one),
and produces exactly `pre ++ r ++ post`: every other occurrence lies inside
`pre` or `post` and is left byte-for-byte identical, as is all surrounding
text. -/
theorem c5_replaceFirst_first_occurrence (m r s : JStr) (hm : m ≠ []) (hocc : m <:+: s) :
    ∃ pre post, s = pre ++ m ++ post
      ∧ (∀ i, i < pre.length → ¬ (m <+: s.drop i))
      ∧ replaceFirst m r s = pre ++ r ++ post := by
  induction s with
  | nil => exact absurd (List.infix_nil.mp hocc) hm
  | cons c rest ih =>
    cases hp : m.isPrefixOf (c :: rest) with
    | true =>
      have hpre : m <+: (c :: rest) := List.isPrefixOf_iff_prefix.mp hp
      refine ⟨[], (c :: rest).drop m.length, ?_, ?_, ?_⟩
      · simpa using ( List.prefix_iff_eq_append.mp hpre).symm
      · intro i hi; simp at hi
      · simp [replaceFirst_matched r hp]
    | false =>
      have hnp : ¬ (m <+: (c :: rest)) := by
        rw [← List.isPrefixOf_iff_prefix, hp]; simp
      have hocc' : m <:+: rest := (List.infix_cons_iff.mp hocc).resolve_left hnp
      obtain ⟨pre', post', heq, hfirst, heval⟩ := ih hocc'
      refine ⟨c :: pre', post', by simp [heq], ?_, ?_⟩
      · intro i hi
        cases i with
        | zero => simpa using hnp
        | succ j =>
          simp only [List.length_cons, Nat.add_lt_add_iff_right] at hi
          simpa using hfirst j hi
      · simp [replaceFirst, hp, heval]

/-- Witness for C5 at a text containing two occurrences of the embed match. -/
theorem c5_replaceFirst_first_occurrence_witness :
    (strL "![[a.png]]" ≠ [] ∧ (strL "![[a.png]]") <:+: strL "x ![[a.png]] y ![[a.png]]")
    ∧ ∃ pre post, strL "x ![[a.png]] y ![[a.png]]" = pre ++ strL "![[a.png]]" ++ post
      ∧ (∀ i, i < pre.length → ¬ (strL "![[a.png]]" <+: (strL "x ![[a.png]] y ![[a.png]]").drop i))
      ∧ replaceFirst (strL "![[a.png]]") (strL "R") (strL "x ![[a.png]] y ![[a.png]]")
          = pre ++ strL "R" ++ post :=
  ⟨⟨by decide, by decide⟩,
    c5_replaceFirst_first_occurrence _ _ _ (by decide) (by decide)⟩

/-! ### C6: round-trip property of the global rewriter -/

/-- C6 is false as stated: with text `aab`, match `ab` and replacement `b`
(the replacement does not contain the match), the first global pass yields
`ab` — replacing an occurrence glues an `a` onto a following `b` and creates
a fresh occurrence — so a second pass changes the text again. -/
theorem c6_counterexample :
    ¬ ((strL "ab") <:+: (strL "b"))
    ∧ replaceAll (strL "ab") (strL "b") (replaceAll (strL "ab") (strL "b") (strL "aab"))
        ≠ replaceAll (strL "ab") (strL "b") (strL "aab") := by
  decide

/-- C6 (amended): the round-trip property
`rewrite(rewrite(text, m, r), m, r) = rewrite(text, m, r)` holds whenever the
match string no longer occurs in the output of the first pass — which is not
guaranteed by `r` not containing `m`, but must be assumed. -/
theorem c6_rewrite_round_trip (m r s : JStr)
    (h : ¬ (m <:+: replaceAll m r s)) :
    replaceAll m r (replaceAll m r s) = replaceAll m r s :=
  replaceAll_id_of_not_infix h

/-- Witness for C6 (amended) at text `aab`, match `ab`, replacement `c`. -/
theorem c6_rewrite_round_trip_witness :
    (¬ ((strL "ab") <:+: replaceAll (strL "ab") (strL "c") (strL "aab")))
    ∧ replaceAll (strL "ab") (strL "c") (replaceAll (strL "ab") (strL "c") (strL "aab"))
        = replaceAll (strL "ab") (strL "c") (strL "aab") :=
  ⟨by decide, c6_rewrite_round_trip _ _ _ (by decide)⟩

/-! ### C7: the replacement text written for a converted embed -/

/-- C7 is false as stated for the single-file flow: converting the body embed
`![[./img/b.png]]` rewrites it to `![](https://cdn.example/b.png)` — the alt
name is empty, not the base file name `b.png` claimed by the spec. -/
theorem c7_counterexample :
    singleFileMarkdownRewrite (strL "![[./img/b.png]]") (strL "https://cdn.example/b.png")
        (strL "body ![[./img/b.png]]")
      = strL "body ![](https://cdn.example/b.png)"
    ∧ singleFileMarkdownRewrite (strL "![[./img/b.png]]") (strL "https://cdn.example/b.png")
        (strL "body ![[./img/b.png]]")
      ≠ strL "body ![b.png](https://cdn.example/b.png)" := by
  decide

/-- C7 (amended): for a document whose text starts with the embed reference
`![[p]]` (followed by any tail in which the embed does not reoccur), the batch
directory flow rewrites the embed to `![name](url)` with `name` the image's
base file name, while the single-file flow rewrites it to `![](url)` with an
empty name. -/
theorem c7_embed_replacement_shape (p url post : JStr)
    (hpost : ¬ (embedRef p <:+: post)) :
    replaceFirst (embedRef p) (remoteEmbedText (jsBasename p) url) (embedRef p ++ post)
      = strL "![" ++ jsBasename p ++ strL "](" ++ url ++ strL ")" ++ post
    ∧ singleFileMarkdownRewrite (embedRef p) url (embedRef p ++ post)
      = strL "![](" ++ url ++ strL ")" ++ post := by
  constructor
  · have hp : (embedRef p).isPrefixOf (embedRef p ++ post) = true :=
      List.isPrefixOf_iff_prefix.mpr (List.prefix_append _ _)
    rw [replaceFirst_matched _ hp, List.drop_left]
    simp [remoteEmbedText]
  · have hm : embedRef p ≠ [] := by simp [embedRef, strL]
    rw [singleFileMarkdownRewrite, replaceAll_head_occurrence _ _ hm hpost]

/-- Witness for C7 (amended) at path `./img/b.png`. -/
theorem c7_embed_replacement_shape_witness :
    replaceFirst (embedRef (strL "./img/b.png"))
        (remoteEmbedText (jsBasename (strL "./img/b.png")) (strL "https://cdn.example/b.png"))
        (embedRef (strL "./img/b.png") ++ strL " tail")
      = strL "![" ++ jsBasename (strL "./img/b.png") ++ strL "]("
          ++ strL "https://cdn.example/b.png" ++ strL ")" ++ strL " tail"
    ∧ singleFileMarkdownRewrite (embedRef (strL "./img/b.png"))
        (strL "https://cdn.example/b.png")
        (embedRef (strL "./img/b.png") ++ strL " tail")
      = strL "![](" ++ strL "https://cdn.example/b.png" ++ strL ")" ++ strL " tail" :=
  c7_embed_replacement_shape _ _ _ (by decide)

/-! ### C4, C8, C9: the local-path classifier -/

/-- C4 is false as stated: the path `ik.imagekit.io.png` ends in `.png` and
starts with no URL scheme, yet under the default-style endpoint configuration
the classifier returns `false`, because `isImageKitUrl` tests substring
containment of `ik.imagekit.io` on arbitrary paths, not just on URLs. -/
theorem c4_counterexample :
    ((strL ".png") <:+ (strL "ik.imagekit.io.png"))
    ∧ jsStartsWith (strL "ik.imagekit.io.png") (strL "http://") = false
    ∧ jsStartsWith (strL "ik.imagekit.io.png") (strL "https://") = false
    ∧ isLocalImagePath (strL "https://ik.imagekit.io/demo") (strL "ik.imagekit.io.png") = false := by
  decide

/-- C4 (amended): every path whose final extension is one of
`png, jpg, jpeg, webp, gif, svg` and that starts with neither `http://` nor
`https://` is classified as a local image, provided the path contains neither
the substring `ik.imagekit.io` nor the configured urlEndpoint as a substring
(in particular the endpoint must not be the empty string, which every path
contains). -/
theorem c4_local_image_classified (ep p : JStr)
    (hext : (strL ".png") <:+ p ∨ (strL ".jpg") <:+ p ∨ (strL ".jpeg") <:+ p
      ∨ (strL ".webp") <:+ p ∨ (strL ".gif") <:+ p ∨ (strL ".svg") <:+ p)
    (h1 : jsStartsWith p (strL "http://") = false)
    (h2 : jsStartsWith p (strL "https://") = false)
    (hcdn : ¬ ((strL "ik.imagekit.io") <:+: p))
    (hep : ¬ (ep <:+: p)) :
    isLocalImagePath ep p = true := by
  have hne : p ≠ [] := by
    rcases hext with h|h|h|h|h|h <;>
      · intro hp
        subst hp
        simp [strL] at h
  have hk : isImageKitUrl ep p = false := by
    simp [isImageKitUrl, hne, jsIncludes, hcdn, hep]
  have hinf : (strL ".png") <:+: p ∨ (strL ".jpg") <:+: p ∨ (strL ".jpeg") <:+: p
      ∨ (strL ".webp") <:+: p ∨ (strL ".gif") <:+: p ∨ (strL ".svg") <:+: p := by
    rcases hext with h|h|h|h|h|h
    · exact Or.inl ( List.IsSuffix.isInfix h)
    · exact Or.inr (Or.inl ( List.IsSuffix.isInfix h))
    · exact Or.inr (Or.inr (Or.inl ( List.IsSuffix.isInfix h)))
    · exact Or.inr (Or.inr (Or.inr (Or.inl ( List.IsSuffix.isInfix h))))
    · exact Or.inr (Or.inr (Or.inr (Or.inr (Or.inl ( List.IsSuffix.isInfix h)))))
    · exact Or.inr (Or.inr (Or.inr (Or.inr (Or.inr ( List.IsSuffix.isInfix h)))))
  simp only [isLocalImagePath, hk, Bool.false_eq_true, if_false, h1, h2, Bool.not_false,
    Bool.true_and, jsIncludes, Bool.or_eq_true, decide_eq_true_eq]
  tauto

/-- Witness for C4 (amended) at path `img/photo.png` under the default-style
endpoint configuration. -/
theorem c4_local_image_classified_witness :
    ((strL ".png") <:+ (strL "img/photo.png") ∨ (strL ".jpg") <:+ (strL "img/photo.png")
      ∨ (strL ".jpeg") <:+ (strL "img/photo.png") ∨ (strL ".webp") <:+ (strL "img/photo.png")
      ∨ (strL ".gif") <:+ (strL "img/photo.png") ∨ (strL ".svg") <:+ (strL "img/photo.png"))
    ∧ isLocalImagePath (strL "https://ik.imagekit.io/demo") (strL "img/photo.png") = true :=
  ⟨by decide,
    c4_local_image_classified _ _ (by decide) (by decide) (by decide) (by decide) (by decide)⟩

/-- C8: every path starting with `http://` or `https://` that contains the
CDN host `ik.imagekit.io` or starts with the configured urlEndpoint is
recognized by `isImageKitUrl` and is never classified as a local image. -/
theorem c8_cdn_url_classified (ep p : JStr)
    (hscheme : jsStartsWith p (strL "http://") = true ∨ jsStartsWith p (strL "https://") = true)
    (hmatch : (strL "ik.imagekit.io") <:+: p ∨ ep <+: p) :
    isImageKitUrl ep p = true ∧ isLocalImagePath ep p = false := by
  have hne : p ≠ [] := by
    rcases hscheme with h|h <;>
      · intro hp
        subst hp
        rw [jsStartsWith] at h
        simp [strL] at h
  have hk : isImageKitUrl ep p = true := by
    rcases hmatch with h|h
    · simp [isImageKitUrl, hne, jsIncludes, h]
    · simp [isImageKitUrl, hne, jsIncludes, List.IsPrefix.isInfix h]
  refine ⟨hk, ?_⟩
  simp [isLocalImagePath, hk]

/-- Witness for C8 at the url `https://ik.imagekit.io/demo/a.png`. -/
theorem c8_cdn_url_classified_witness :
    (jsStartsWith (strL "https://ik.imagekit.io/demo/a.png") (strL "http://") = true
      ∨ jsStartsWith (strL "https://ik.imagekit.io/demo/a.png") (strL "https://") = true)
    ∧ (isImageKitUrl (strL "https://ik.imagekit.io/demo")
          (strL "https://ik.imagekit.io/demo/a.png") = true
       ∧ isLocalImagePath (strL "https://ik.imagekit.io/demo")
          (strL "https://ik.imagekit.io/demo/a.png") = false) :=
  ⟨by decide, c8_cdn_url_classified _ _ (by decide) (by decide)⟩

/-- C9: with an empty configured urlEndpoint, every non-empty path is
recognized as an ImageKit url (every string contains the empty substring), and
consequently no path whatsoever — empty or not — is classified as a local
image, so nothing is ever offered for conversion. -/
theorem c9_empty_endpoint_blocks_all (p : JStr) :
    (p ≠ [] → isImageKitUrl [] p = true) ∧ isLocalImagePath [] p = false := by
  refine ⟨fun hne => ?_, ?_⟩
  · have hr : jsIncludes p ([] : JStr) = true := by simp [jsIncludes]
    simp [isImageKitUrl, hne, hr]
  · cases p with
    | nil => decide
    | cons c rest =>
      have hk : isImageKitUrl [] (c :: rest) = true := by
        simp [isImageKitUrl, jsIncludes]
      simp [isLocalImagePath, hk]

/-- Witness for C9 at the plain local path `image.png`. -/
theorem c9_empty_endpoint_blocks_all_witness :
    isImageKitUrl [] (strL "image.png") = true
    ∧ isLocalImagePath [] (strL "image.png") = false :=
  ⟨(c9_empty_endpoint_blocks_all _).1 (by decide), (c9_empty_endpoint_blocks_all _).2⟩

/-! ### C1, C10: the multipart upload body -/

theorem setAt_layout (H F T : List Nat) :
    setAt (setAt (setAt (List.replicate (H.length + F.length + T.length) 0) 0 H) H.length F)
        (H.length + F.length) T = H ++ F ++ T := by
  have e1 : setAt (List.replicate (H.length + F.length + T.length) 0) 0 H
      = H ++ List.replicate (F.length + T.length) 0 := by
    have harith : H.length + F.length + T.length - H.length = F.length + T.length := by
      omega
    simp [setAt, List.drop_replicate, harith]
  have e2 : setAt (H ++ List.replicate (F.length + T.length) 0) H.length F
      = H ++ F ++ List.replicate T.length 0 := by
    have harith : F.length + T.length - F.length = T.length := by omega
    simp only [setAt, List.take_left, ← List.drop_drop, List.drop_left,
      List.drop_replicate, harith]
  have e3 : setAt (H ++ F ++ List.replicate T.length 0) (H.length + F.length) T
      = H ++ F ++ T := by
    have harith : T.length - T.length = 0 := by omega
    simp only [setAt, ← List.append_assoc]
    rw [ List.take_left' (by simp), ← List.drop_drop, List.drop_left' (by simp),
      List.drop_replicate, harith]
    simp
  rw [e1, e2, e3]

/-- The request body assembled by `uploadFile` is exactly
header bytes ++ file bytes ++ footer bytes. -/
theorem uploadFile_body_eq (cfg : ImageKitConfig) (boundary : String) (buf : List Nat)
    (fileName : String) (folder : Option String) (tags : Option (List String))
    (he : cfg.enabled = true) (hk : cfg.privateKey ≠ "") :
    uploadFile cfg boundary buf fileName folder tags
      = Except.ok (utf8Bytes (formHeaderOf cfg boundary fileName folder tags)
          ++ buf ++ utf8Bytes (formFooterOf boundary)) := by
  simp only [uploadFile, he, Bool.not_true, Bool.false_eq_true, if_false, if_neg hk]
  exact congrArg Except.ok (setAt_layout _ _ _)

/-- C1: under the preconditions (ImageKit enabled, private key configured)
the multipart body built by uploadFile is exactly the concatenation
headerBytes ++ fileBytes ++ footerBytes, where fileBytes is byte-for-byte the
input buffer, headerBytes is the UTF-8 encoding of the form fields for
fileName, optional folder, optional tags and the file part header
(`formHeaderOf`), and footerBytes is the closing boundary line
(`formFooterOf`). -/
theorem c1_uploadFile_multipart_body (cfg : ImageKitConfig) (boundary : String)
    (buf : List Nat) (fileName : String) (folder : Option String)
    (tags : Option (List String))
    (he : cfg.enabled = true) (hk : cfg.privateKey ≠ "") :
    uploadFile cfg boundary buf fileName folder tags
      = Except.ok (utf8Bytes (formHeaderOf cfg boundary fileName folder tags)
          ++ buf ++ utf8Bytes (formFooterOf boundary)) :=
  uploadFile_body_eq cfg boundary buf fileName folder tags he hk

/-- A concrete enabled configuration used by the witnesses. -/
def cfgW : ImageKitConfig :=
  { enabled := true
    privateKey := "private_test_key"
    urlEndpoint := "https://ik.imagekit.io/demo"
    uploadFolder := "/uploads"
    removeLocalFiles := false
    convertToWebp := true }

/-- Witness for C1 at a concrete configuration and buffer. -/
theorem c1_uploadFile_multipart_body_witness :
    uploadFile cfgW "BOUND" [0, 255, 10, 13] "a.png" none (some ["t1", "t2"])
      = Except.ok (utf8Bytes (formHeaderOf cfgW "BOUND" "a.png" none (some ["t1", "t2"]))
          ++ [0, 255, 10, 13] ++ utf8Bytes (formFooterOf "BOUND")) :=
  c1_uploadFile_multipart_body cfgW "BOUND" [0, 255, 10, 13] "a.png" none (some ["t1", "t2"])
    rfl (by decide)

/-- C10: with convertToWebp enabled and a file name ending in neither `.webp`
nor `.svg`, the upload body equals the body produced with convertToWebp
disabled for the renamed file name — only the fileName changes — and in both
the enabled and the disabled case the file-bytes segment of the body is
byte-for-byte the input buffer, between a header and the same footer: no
image re-encoding occurs. -/
theorem c10_convertToWebp_renames_only (cfg : ImageKitConfig) (boundary : String)
    (buf : List Nat) (fileName : String) (folder : Option String)
    (tags : Option (List String))
    (he : cfg.enabled = true) (hk : cfg.privateKey ≠ "")
    (hw : jsEndsWithS fileName ".webp" = false) (hs : jsEndsWithS fileName ".svg" = false) :
    uploadFile { cfg with convertToWebp := true } boundary buf fileName folder tags
      = uploadFile { cfg with convertToWebp := false } boundary buf (webpRename fileName)
          folder tags
    ∧ ∃ hOn hOff,
        uploadFile { cfg with convertToWebp := true } boundary buf fileName folder tags
          = Except.ok (hOn ++ buf ++ utf8Bytes (formFooterOf boundary))
        ∧ uploadFile { cfg with convertToWebp := false } boundary buf fileName folder tags
          = Except.ok (hOff ++ buf ++ utf8Bytes (formFooterOf boundary)) := by
  have hname : finalFileNameOf { cfg with convertToWebp := true } fileName
      = webpRename fileName := by
    simp [finalFileNameOf, hw, hs]
  have hname2 : ∀ g : String, finalFileNameOf { cfg with convertToWebp := false } g = g := by
    intro g
    simp [finalFileNameOf]
  refine ⟨?_, ?_⟩
  · rw [uploadFile_body_eq { cfg with convertToWebp := true } boundary buf fileName
        folder tags he hk,
      uploadFile_body_eq { cfg with convertToWebp := false } boundary buf
        (webpRename fileName) folder tags he hk]
    have hfields : formFieldsOf { cfg with convertToWebp := true } boundary fileName folder tags
        = formFieldsOf { cfg with convertToWebp := false } boundary (webpRename fileName)
            folder tags := by
      simp [formFieldsOf, hname, hname2, uploadFolderOf]
    rw [formHeaderOf, formHeaderOf, hfields]
  · exact ⟨utf8Bytes (formHeaderOf { cfg with convertToWebp := true } boundary fileName
        folder tags),
      utf8Bytes (formHeaderOf { cfg with convertToWebp := false } boundary fileName
        folder tags),
      uploadFile_body_eq { cfg with convertToWebp := true } boundary buf fileName
        folder tags he hk,
      uploadFile_body_eq { cfg with convertToWebp := false } boundary buf fileName
        folder tags he hk⟩

/-- Witness for C10 at the file name `a.png`. -/
theorem c10_convertToWebp_renames_only_witness :
    (jsEndsWithS "a.png" ".webp" = false ∧ jsEndsWithS "a.png" ".svg" = false)
    ∧ (uploadFile { cfgW with convertToWebp := true } "B" [7, 8] "a.png" none none
        = uploadFile { cfgW with convertToWebp := false } "B" [7, 8] (webpRename "a.png")
            none none
      ∧ ∃ hOn hOff,
          uploadFile { cfgW with convertToWebp := true } "B" [7, 8] "a.png" none none
            = Except.ok (hOn ++ [7, 8] ++ utf8Bytes (formFooterOf "B"))
          ∧ uploadFile { cfgW with convertToWebp := false } "B" [7, 8] "a.png" none none
            = Except.ok (hOff ++ [7, 8] ++ utf8Bytes (formFooterOf "B"))) :=
  ⟨⟨by decide, by decide⟩,
    c10_convertToWebp_renames_only cfgW "B" [7, 8] "a.png" none none
      rfl (by decide) (by decide) (by decide)⟩

/-! ### C2, C3: the batch conversion loop -/

theorem runBatch_counts (rm : Bool) (uf : JStr)
    (up : List Nat → JStr → JStr → Except String JStr) :
    ∀ (refs : List LocalImageReference) (v : VaultState),
      (runBatch rm uf up v refs).2.1 + (runBatch rm uf up v refs).2.2 = refs.length := by
  intro refs
  induction refs with
  | nil => intro _; rfl
  | cons ref rest ih =>
    intro v
    cases hc : convertSingleImage rm uf up v ref with
    | ok v1 =>
      have := ih v1
      simp [runBatch, hc]
      omega
    | error e =>
      have := ih v
      simp [runBatch, hc]
      omega

theorem runBatch_append (rm : Bool) (uf : JStr)
    (up : List Nat → JStr → JStr → Except String JStr) :
    ∀ (l1 l2 : List LocalImageReference) (v : VaultState),
      runBatch rm uf up v (l1 ++ l2)
        = ((runBatch rm uf up (runBatch rm uf up v l1).1 l2).1,
           (runBatch rm uf up v l1).2.1
             + (runBatch rm uf up (runBatch rm uf up v l1).1 l2).2.1,
           (runBatch rm uf up v l1).2.2
             + (runBatch rm uf up (runBatch rm uf up v l1).1 l2).2.2) := by
  intro l1
  induction l1 with
  | nil =>
    intro l2 v
    simp [runBatch]
  | cons ref rest ih =>
    intro l2 v
    cases hc : convertSingleImage rm uf up v ref with
    | ok v1 =>
      simp [runBatch, hc, ih l2 v1, Prod.ext_iff]
      omega
    | error e =>
      simp [runBatch, hc, ih l2 v, Prod.ext_iff]
      omega

/-- C2: a batch over the selected references always accounts for every item —
the reported success and failure counts sum to the number of selected
references, so K failures over N items are reported as N-K successes and K
failures — and an item whose conversion throws (at the file lookup, the image
lookup or the upload, all of which happen before any document read or write)
is caught at the item boundary and performs no document write: the vault
after that item is exactly the vault before it, while the loop continues with
the remaining items. -/
theorem c2_batch_error_isolation (rm : Bool) (uf : JStr)
    (up : List Nat → JStr → JStr → Except String JStr)
    (v : VaultState) (refs : List LocalImageReference) :
    ((handleConvert rm uf up v refs).2.1 + (handleConvert rm uf up v refs).2.2
        = (refs.filter (fun r => r.selected)).length)
    ∧ ∀ pre ref post, refs.filter (fun r => r.selected) = pre ++ ref :: post →
        ∀ e, convertSingleImage rm uf up (runBatch rm uf up v pre).1 ref
            = Except.error e →
          (runBatch rm uf up v (pre ++ [ref])).1 = (runBatch rm uf up v pre).1 := by
  constructor
  · exact runBatch_counts rm uf up _ v
  · intro pre ref post _ e herr
    rw [runBatch_append rm uf up pre [ref] v]
    simp [runBatch, herr]

/-- Upload stub used by the batch witnesses: every upload succeeds and
returns a CDN url derived from the image name. -/
def uploadW : List Nat → JStr → JStr → Except String JStr :=
  fun _ name _ => Except.ok (strL "https://ik.imagekit.io/demo/" ++ name)

def vaultW2 : VaultState :=
  { docs := [(strL "a.md", strL "one ![[img/x.png]] two"),
             (strL "b.md", strL "see ![[img/y.png]]")]
    images := [(strL "img/x.png", [1, 2, 3])] }

def refW1 : LocalImageReference :=
  ⟨strL "a.md", strL "a.md", strL "img/x.png", strL "x.png", strL "![[img/x.png]]", 1, true⟩

def refW2 : LocalImageReference :=
  ⟨strL "b.md", strL "b.md", strL "img/y.png", strL "y.png", strL "![[img/y.png]]", 1, true⟩

/-- Witness for C2: of two selected references the second fails (its image
binary is missing from the vault), and the vault after the failing item is
exactly the vault before it. -/
theorem c2_batch_error_isolation_witness :
    (([refW1, refW2].filter (fun r => r.selected) = [refW1] ++ refW2 :: [])
      ∧ convertSingleImage false (strL "/up") uploadW
          (runBatch false (strL "/up") uploadW vaultW2 [refW1]).1 refW2
          = Except.error "Image file not found")
    ∧ (runBatch false (strL "/up") uploadW vaultW2 ([refW1] ++ [refW2])).1
        = (runBatch false (strL "/up") uploadW vaultW2 [refW1]).1 :=
  ⟨⟨rfl, rfl⟩,
    (c2_batch_error_isolation false (strL "/up") uploadW vaultW2 [refW1, refW2]).2
      [refW1] refW2 [] rfl "Image file not found" rfl⟩

/-- C3: two selected references r1 and r2 owned by the same document and
processed back-to-back compose sequentially: the conversion of r2 reads the
text produced by r1's write, so the final document text is
rewrite(rewrite(originalText, r1), r2) and no update is lost. -/
theorem c3_same_doc_sequential (uf : JStr)
    (up : List Nat → JStr → JStr → Except String JStr)
    (v : VaultState) (r1 r2 : LocalImageReference) (orig : JStr)
    (buf1 buf2 : List Nat) (u1 u2 : JStr)
    (hd : r2.filePath = r1.filePath)
    (h1 : v.docs.lookup r1.filePath = some orig)
    (hi1 : v.images.lookup r1.imagePath = some buf1)
    (hu1 : up buf1 r1.imageName uf = Except.ok u1)
    (hi2 : v.images.lookup r2.imagePath = some buf2)
    (hu2 : up buf2 r2.imageName uf = Except.ok u2) :
    readDoc (runBatch false uf up v [r1, r2]).1 r1.filePath
      = some (replaceFirst r2.fullMatch (remoteEmbedText r2.imageName u2)
          (replaceFirst r1.fullMatch (remoteEmbedText r1.imageName u1) orig)) := by
  have step1 : convertSingleImage false uf up v r1
      = Except.ok (writeDoc v r1.filePath
          (replaceFirst r1.fullMatch (remoteEmbedText r1.imageName u1) orig)) := by
    simp [convertSingleImage, readDoc, h1, hi1, hu1]
  set t1 := replaceFirst r1.fullMatch (remoteEmbedText r1.imageName u1) orig with ht1
  set t2 := replaceFirst r2.fullMatch (remoteEmbedText r2.imageName u2) t1 with ht2
  have hread2 : readDoc (writeDoc v r1.filePath t1) r2.filePath = some t1 := by
    rw [hd]
    simp [readDoc, writeDoc]
  have himg : (writeDoc v r1.filePath t1).images = v.images := rfl
  have step2 : convertSingleImage false uf up (writeDoc v r1.filePath t1) r2
      = Except.ok (writeDoc (writeDoc v r1.filePath t1) r2.filePath t2) := by
    simp [convertSingleImage, hread2, himg, hi2, hu2, ht2]
  have hrun : (runBatch false uf up v [r1, r2]).1
      = writeDoc (writeDoc v r1.filePath t1) r2.filePath t2 := by
    simp [runBatch, step1, step2]
  rw [hrun, hd]
  simp [readDoc, writeDoc]

def vaultW3 : VaultState :=
  { docs := [(strL "n.md", strL "![[a.png]] mid ![[b.png]]")]
    images := [(strL "a.png", [1]), (strL "b.png", [2])] }

def refX1 : LocalImageReference :=
  ⟨strL "n.md", strL "n.md", strL "a.png", strL "a.png", strL "![[a.png]]", 1, true⟩

def refX2 : LocalImageReference :=
  ⟨strL "n.md", strL "n.md", strL "b.png", strL "b.png", strL "![[b.png]]", 1, true⟩

/-- Witness for C3: two references in the same document, converted in order,
leave the document equal to the sequential composition of both rewrites. -/
theorem c3_same_doc_sequential_witness :
    readDoc (runBatch false (strL "/up") uploadW vaultW3 [refX1, refX2]).1 (strL "n.md")
      = some (replaceFirst (strL "![[b.png]]")
          (remoteEmbedText (strL "b.png") (strL "https://ik.imagekit.io/demo/" ++ strL "b.png"))
          (replaceFirst (strL "![[a.png]]")
            (remoteEmbedText (strL "a.png") (strL "https://ik.imagekit.io/demo/" ++ strL "a.png"))
            (strL "![[a.png]] mid ![[b.png]]"))) :=
  c3_same_doc_sequential (strL "/up") uploadW vaultW3 refX1 refX2
    (strL "![[a.png]] mid ![[b.png]]") [1] [2]
    (strL "https://ik.imagekit.io/demo/" ++ strL "a.png")
    (strL "https://ik.imagekit.io/demo/" ++ strL "b.png")
    rfl rfl rfl rfl rfl rfl

end ImageGin
